import Mathlib

/-!
Verification of the `svganimator` rendering engine and asset pipeline.

Shallow embedding of `backend/services/ad_renderer.py` and
`backend/services/asset_processor.py` (plus `backend/utils.py`'s
`ColorUtils.hex_to_rgb`, which is character-for-character the same function as
`AdRenderer._hex_to_rgb`).  Python machine behaviour is embedded as follows:
`float` arithmetic on ratios is modelled with `ℚ` (the source only multiplies,
divides and truncates small rationals, where `float` and `ℚ` agree on every
property proved here), fallible Python code is modelled with `Except`/`Option`
(an `Except.error`/`none` is a raised exception), and `try/except` blocks
become explicit `match`es on those values.
-/

namespace AdMimic

/-- RGB colour triple, channels as integers (Python `int`). -/
abbrev RGB := ℤ × ℤ × ℤ

/-- Python `int(q)` for a real-valued `q`: truncation toward zero. -/
def pyInt (q : ℚ) : ℤ := if 0 ≤ q then ⌊q⌋ else -⌊-q⌋

/-- The value of a single hexadecimal digit accepted by Python `int(·, 16)`:
`0`-`9`, `a`-`f`, `A`-`F`; `none` for every other character. -/
def hexDigit? (c : Char) : Option ℤ :=
  if 48 ≤ c.toNat ∧ c.toNat ≤ 57 then some ((c.toNat : ℤ) - 48)
  else if 97 ≤ c.toNat ∧ c.toNat ≤ 102 then some ((c.toNat : ℤ) - 87)
  else if 65 ≤ c.toNat ∧ c.toNat ≤ 70 then some ((c.toNat : ℤ) - 55)
  else none

/-- Python `int(s, 16)` restricted to strings of length at most two — the only
slices `_hex_to_rgb` ever produces (`hex_color[i:i+2]`).  Python's parser
allows surrounding whitespace and a single leading sign before the digits, so
`" a"`, `"a "`, `"+a"` and `"-a"` all parse; the empty string raises
(`none`). -/
def pyIntHex2 : List Char → Option ℤ
  | [] => none
  | [c] => hexDigit? c
  | [c1, c2] =>
    if c1.isWhitespace then hexDigit? c2
    else if c2.isWhitespace then hexDigit? c1
    else if c1 = '+' then hexDigit? c2
    else if c1 = '-' then (hexDigit? c2).map (fun d => -d)
    else
      match hexDigit? c1, hexDigit? c2 with
      | some d1, some d2 => some (16 * d1 + d2)
      | _, _ => none
  | _ => none

/-- Python slice `l[i:i+n]` (clamps at the end of the list). -/
def pySlice (l : List Char) (i n : ℕ) : List Char := (l.drop i).take n

/-- Python `''.join([c*2 for c in hex_color])`: duplicate every character. -/
def dupEach : List Char → List Char
  | [] => []
  | c :: cs => c :: c :: dupEach cs

/-- Models `AdRenderer._hex_to_rgb` (ad_renderer.py:628-633), identical to
`ColorUtils.hex_to_rgb` (utils.py:327-332): strip leading `'#'` characters
(`str.lstrip('#')` strips every leading occurrence), expand a length-3 string
by digit duplication, then parse the three slices `[0:2]`, `[2:4]`, `[4:6]`
with `int(·, 16)`.  `none` models the `ValueError` Python raises when a slice
fails to parse. -/
def hexToRgb (s : List Char) : Option RGB := do
  let h0 := s.dropWhile (fun c => c = '#')
  let h := if h0.length = 3 then dupEach h0 else h0
  let r ← pyIntHex2 (pySlice h 0 2)
  let g ← pyIntHex2 (pySlice h 2 2)
  let b ← pyIntHex2 (pySlice h 4 2)
  pure (r, g, b)

/-- Models `AdRenderer._interpolate_colors` (ad_renderer.py:565-591).  Fewer than two
colours: return the single colour (or black for the empty list).  Otherwise
clamp the ratio into `[0,1]`, locate the segment with `int(ratio/segment_size)`,
return the last colour once the segment index reaches `len(colors)-1`, and
otherwise linearly interpolate each channel inside the segment, truncating with
`int(...)`. -/
def interpolateColors (colors : List RGB) (ratio : ℚ) : RGB :=
  if colors.length < 2 then colors.headD (0, 0, 0)
  else
    let r := max 0 (min 1 ratio)
    let segSize : ℚ := 1 / ((colors.length : ℚ) - 1)
    let segment : ℤ := pyInt (r / segSize)
    if (colors.length : ℤ) - 1 ≤ segment then colors.getLastD (0, 0, 0)
    else
      let localRatio : ℚ := (r - segment * segSize) / segSize
      let c1 := colors.getD segment.toNat (0, 0, 0)
      let c2 := colors.getD (segment.toNat + 1) (0, 0, 0)
      (pyInt ((c1.1 : ℚ) + ((c2.1 : ℚ) - (c1.1 : ℚ)) * localRatio),
       pyInt ((c1.2.1 : ℚ) + ((c2.2.1 : ℚ) - (c1.2.1 : ℚ)) * localRatio),
       pyInt ((c1.2.2 : ℚ) + ((c2.2.2 : ℚ) - (c1.2.2 : ℚ)) * localRatio))

/-! ### Text wrapping (`AdRenderer._wrap_text`, ad_renderer.py:455-480) -/

/-- A word, as produced by Python `str.split()`. -/
abbrev Word := List Char

/-- Accumulator-based worker for `str.split()`; `acc` holds the characters of
the word currently being scanned, in reverse. -/
def pySplitAux (acc : Word) : List Char → List Word
  | [] => if acc = [] then [] else [acc.reverse]
  | c :: cs =>
    if c.isWhitespace then
      if acc = [] then pySplitAux [] cs else acc.reverse :: pySplitAux [] cs
    else pySplitAux (c :: acc) cs

/-- Python `str.split()` with no argument: split on runs of whitespace,
discarding empty fields.  A whitespace-only string yields `[]`. -/
def pySplit (s : List Char) : List Word := pySplitAux [] s

/-- Python `' '.join(words)`. -/
def joinSpace (ws : List Word) : List Char := List.intercalate [' '] ws

/-- One iteration of the `for word in words` loop of `_wrap_text`: the state is
`(lines, current_line)`.  If the candidate line fits, extend `current_line`;
otherwise close the current line and restart from `word`, or — when
`current_line` is empty — emit the single too-wide word on its own line. -/
def wrapStep (widthOf : List Char → ℚ) (maxWidth : ℤ) (st : List (List Char) × List Word)
    (word : Word) : List (List Char) × List Word :=
  let test := joinSpace (st.2 ++ [word])
  if widthOf test ≤ (maxWidth : ℚ) then (st.1, st.2 ++ [word])
  else if st.2 ≠ [] then (st.1 ++ [joinSpace st.2], [word])
  else (st.1 ++ [word], [])

/-- The trailing `if current_line: lines.append(' '.join(current_line))` of
`_wrap_text`. -/
def flushLines (st : List (List Char) × List Word) : List (List Char) :=
  if st.2 ≠ [] then st.1 ++ [joinSpace st.2] else st.1

/-- Models `AdRenderer._wrap_text(text, font, max_width)`.  `widthOf` abstracts
`font.getlength` (a nonnegative `float`, modelled in `ℚ`); `maxWidth` is the
integer `pos.width`.  After the loop the leftover `current_line` is flushed. -/
def wrapText (widthOf : List Char → ℚ) (text : List Char) (maxWidth : ℤ) : List (List Char) :=
  flushLines ((pySplit text).foldl (wrapStep widthOf maxWidth) ([], []))

/-! ### Elements, stable z-ordering and the element loop
(`AdRenderer.render_ad` lines 73-79, `_render_element` lines 151-167) -/

/-- The fields of `AdElement` (models/schemas.py) consumed by the rendering
control flow verified here: `type` drives the dispatch in `_render_element`,
`z_index` drives the sort in `render_ad`, `id`/`content` are carried along
(`content` selects the shape for `background_element`s).  Geometry and styling
are interpreted inside the per-type renderers, which the theorems below
quantify over. -/
structure AdElement where
  id : String
  type : String
  content : String
  z_index : ℤ
deriving DecidableEq, Repr

/-- The output canvas: dimensions plus a pixel function.  PIL's mutable
`Image` is threaded through explicitly. -/
structure Canvas where
  width : ℕ
  height : ℕ
  pix : ℕ × ℕ → RGB

/-- Models `sorted(structure.elements, key=lambda x: x.z_index)` (ad_renderer.py:74).
Python's sort is stable; insertion sort with the non-strict comparison
`a.z_index ≤ b.z_index` computes exactly the stable ascending reordering. -/
def sortByZ (l : List AdElement) : List AdElement :=
  List.insertionSort (fun a b => a.z_index ≤ b.z_index) l

/-- The per-type dispatch inside `_render_element` (ad_renderer.py:154-164):
an `if/elif` chain on `element.type` over the five per-type renderers; an
unknown type silently does nothing.  The renderers draw in place on the PIL
canvas, so a raise mid-draw leaves the mutations already made: a raise is
modelled as `Except.error` whose payload carries the canvas as already
mutated at the moment of the exception, alongside the exception value (a
renderer that raises before touching the canvas errors with its input
canvas). -/
def dispatchElement {E : Type}
    (rText rButton rLogo rImage rBgEl : Canvas → AdElement → Except (Canvas × E) Canvas)
    (c : Canvas) (e : AdElement) : Except (Canvas × E) Canvas :=
  if e.type = "text" then rText c e
  else if e.type = "button" then rButton c e
  else if e.type = "logo" then rLogo c e
  else if e.type = "image" then rImage c e
  else if e.type = "background_element" then rBgEl c e
  else .ok c

/-- The `try/except` wrapper of `_render_element` (ad_renderer.py:154-167): a
raise from the dispatched renderer is caught and logged, and the loop
continues with the canvas in whatever state the in-place drawing left it —
the handler does not roll anything back, so mutations made before the raise
persist. -/
def renderElementCaught {E : Type} (body : Canvas → AdElement → Except (Canvas × E) Canvas)
    (c : Canvas) (e : AdElement) : Canvas :=
  match body c e with
  | .ok c2 => c2
  | .error (c2, _) => c2

/-- The `for element in sorted_elements` loop of `render_ad`
(ad_renderer.py:77-79). -/
def renderElements {E : Type} (body : Canvas → AdElement → Except (Canvas × E) Canvas)
    (c : Canvas) (es : List AdElement) : Canvas :=
  es.foldl (renderElementCaught body) c

/-- Pixel-level abstraction of one element's drawing: `paint e p = some col`
when `e`'s renderer writes colour `col` at pixel `p`, `none` where it leaves
the canvas alone.  Drawing overwrites the pixels it covers. -/
def drawElement (paint : AdElement → ℕ × ℕ → Option RGB) (c : Canvas) (e : AdElement) : Canvas :=
  { c with pix := fun p => match paint e p with
      | some col => col
      | none => c.pix p }

/-- The element pass of `render_ad` at the pixel level: stable-sort by `z_index`,
then draw each element in order. -/
def renderSorted (paint : AdElement → ℕ × ℕ → Option RGB) (c : Canvas) (l : List AdElement) : Canvas :=
  (sortByZ l).foldl (drawElement paint) c

/-! ### Asset pipeline (`BrandAssetProcessor`, asset_processor.py) -/

/-- The `try/except` shape shared by `_ensure_transparency` (lines 217-240),
`_create_monochrome_version` (246-285), `_enhance_contrast` (287-299) and
`_optimize_final_image` (ad_renderer.py:608-626): run the fallible core and,
if it raises, log a warning and return the input image unchanged. -/
def withFallback {Img E : Type} (core : Img → Except E Img) (img : Img) : Img :=
  match core img with
  | .ok r => r
  | .error _ => img

/-- The five variant names written by `process_logo`, in creation order. -/
inductive LogoVariant where
  | original
  | transparent
  | white
  | black
  | highContrast
deriving DecidableEq, Repr

/-- Models `BrandAssetProcessor.process_logo` (asset_processor.py:40-96).  The
fallible primitives are parameters: `openResize` is
`Image.open(...).convert("RGBA")` followed by `_resize_image`, `mkdirOut` is
`Path(output_dir).mkdir(...)`, and `save v img` is the `img.save(...)` call for
variant `v`.  `removeBg`, `monoCore color` and `contrastCore` are the fallible
cores of the three helpers, each of which falls back to its input on failure.
The whole body sits in one `try/except` that returns the empty mapping `{}` on
any uncaught raise; since the source only returns the accumulated `variants`
dict after the last save succeeded, returning the full association list at the
end is observationally the same. -/
def processLogo {Img E : Type} (openResize : Except E Img) (mkdirOut : Except E Unit)
    (save : LogoVariant → Img → Except E Unit)
    (removeBg : Img → Except E Img) (monoCore : String → Img → Except E Img)
    (contrastCore : Img → Except E Img) : List (LogoVariant × Img) :=
  match (do
    let original ← openResize
    mkdirOut
    save .original original
    let transparent := withFallback removeBg original
    save .transparent transparent
    let white := withFallback (monoCore "white") transparent
    save .white white
    let black := withFallback (monoCore "black") transparent
    save .black black
    let highContrast := withFallback contrastCore transparent
    save .highContrast highContrast
    pure [(LogoVariant.original, original), (LogoVariant.transparent, transparent),
          (LogoVariant.white, white), (LogoVariant.black, black),
          (LogoVariant.highContrast, highContrast)] : Except E (List (LogoVariant × Img))) with
  | .ok vs => vs
  | .error _ => []

/-- A byte channel rendered as two lowercase hex digits (`f"{n:02x}"` for
`0 ≤ n ≤ 255`, the range ColorThief produces). -/
def toHexDigit (n : ℕ) : Char :=
  if n < 10 then Char.ofNat (48 + n) else Char.ofNat (87 + n)

/-- Two-digit lowercase hex of one byte. -/
def hexByte (n : ℕ) : List Char := [toHexDigit (n / 16 % 16), toHexDigit (n % 16)]

/-- Models `BrandAssetProcessor._rgb_to_hex` (asset_processor.py:371-373):
`f"#{r:02x}{g:02x}{b:02x}"`. -/
def rgbToHex (c : ℕ × ℕ × ℕ) : List Char :=
  '#' :: (hexByte c.1 ++ hexByte c.2.1 ++ hexByte c.2.2)

/-- The `unique_colors` loop of `extract_brand_colors` (lines 188-191): keep
the first occurrence of each colour, preserving order; `unique` is the
accumulated result. -/
def dedupAux {α : Type} [DecidableEq α] (unique : List α) : List α → List α
  | [] => unique
  | c :: cs => if c ∈ unique then dedupAux unique cs else dedupAux (unique ++ [c]) cs

/-- Models `BrandAssetProcessor.extract_brand_colors` (asset_processor.py:152-198).
`getColor` and `getPalette` model the fallible ColorThief calls
`get_color(quality=1)` and `get_palette(color_count=·, quality=1)` (together
with the `ColorThief(path)` construction); the palette call receives
`color_count = num_colors`, so `getPalette` is a function of that count (the
colorthief package's MMCQ quantizer raises for counts below 2 — recorded as a
hypothesis where a theorem needs it, since that code lives outside this
repository).  On any raise the fixed fallback palette is returned; otherwise
the dominant colour is moved to the front (`list.remove` deletes the first
occurrence), duplicates are removed preserving order, and the list is
truncated to `num_colors`. -/
def extractBrandColors {E : Type} (getColor : Except E (ℕ × ℕ × ℕ))
    (getPalette : ℕ → Except E (List (ℕ × ℕ × ℕ))) (numColors : ℕ) : List (List Char) :=
  match (do
    let d ← getColor
    let p ← getPalette numColors
    pure (d, p) : Except E ((ℕ × ℕ × ℕ) × List (ℕ × ℕ × ℕ))) with
  | .error _ => ["#000000".toList, "#FFFFFF".toList]
  | .ok (d, p) =>
    let colors := p.map rgbToHex
    let dominantHex := rgbToHex d
    let colors :=
      if dominantHex ∈ colors then dominantHex :: colors.erase dominantHex
      else dominantHex :: colors
    (dedupAux [] colors).take numColors

/-! ### Background rendering (`AdRenderer._render_background` and helpers,
ad_renderer.py:98-149, 541-563) -/

/-- The `Background` schema (models/schemas.py): tagged by the `type` string
(`"solid_color"`, `"gradient"`, `"image"`), `value` holding the colour hex or
image location, plus the optional gradient fields. -/
structure Background where
  type : String
  value : List Char
  gradient_direction : Option String
  gradient_colors : Option (List (List Char))

/-- Fill the whole canvas with one colour
(the `paste` in `_render_solid_background`). -/
def solidFill (c : Canvas) (rgb : RGB) : Canvas :=
  { c with pix := fun _ => rgb }

/-- Models `AdRenderer._render_solid_background` (ad_renderer.py:112-116): parse the
colour and flat-fill; a `_hex_to_rgb` parse failure is a raise. -/
def renderSolidBackground (c : Canvas) (color : List Char) : Except Unit Canvas :=
  match hexToRgb color with
  | some rgb => .ok (solidFill c rgb)
  | none => .error ()

/-- The `[self._hex_to_rgb(color) for color in colors]` comprehension inside
`_create_gradient`: any unparsable colour raises. -/
def mapHexToRgb : List (List Char) → Except Unit (List RGB)
  | [] => .ok []
  | h :: t =>
    match hexToRgb h with
    | none => .error ()
    | some rgb => (mapHexToRgb t).map (fun l => rgb :: l)

/-- Models `AdRenderer._create_gradient` (ad_renderer.py:541-563): horizontal
gradients interpolate per column with `ratio = x/width`, anything else
(vertical or default) per row with `ratio = y/height`. -/
def gradientFill (c : Canvas) (cols : List RGB) (direction : String) : Canvas :=
  if direction = "horizontal" then
    { c with pix := fun p => interpolateColors cols ((p.1 : ℚ) / (c.width : ℚ)) }
  else
    { c with pix := fun p => interpolateColors cols ((p.2 : ℚ) / (c.height : ℚ)) }

/-- Models `AdRenderer._render_gradient_background` (ad_renderer.py:118-134): with a
missing gradient colour list or fewer than two colours it falls back to a
solid fill of `background.value`; otherwise it builds the gradient (the colour
conversions inside may raise). -/
def renderGradientBackground (c : Canvas) (bg : Background) : Except Unit Canvas :=
  match bg.gradient_colors with
  | none => renderSolidBackground c bg.value
  | some cols =>
    if cols.length < 2 then renderSolidBackground c bg.value
    else
      match mapHexToRgb cols with
      | .error _ => .error ()
      | .ok rgbCols => .ok (gradientFill c rgbCols (bg.gradient_direction.getD "vertical"))

/-- Models `AdRenderer._render_image_background` (ad_renderer.py:136-149): load the
image, stretch it to the canvas size and paste it; its own `try/except` turns
a load failure into a white solid fill.  `loadImage` abstracts
`Image.open(url)` plus the resize, already stretched to canvas
coordinates. -/
def renderImageBackground (loadImage : List Char → Except Unit (ℕ × ℕ → RGB))
    (c : Canvas) (url : List Char) : Canvas :=
  match loadImage url with
  | .ok img => { c with pix := fun p => img p }
  | .error _ => solidFill c (255, 255, 255)

/-- The `try` body of `_render_background` (ad_renderer.py:100-106): dispatch
on `background.type`; an unknown type does nothing. -/
def renderBackgroundCore (loadImage : List Char → Except Unit (ℕ × ℕ → RGB))
    (c : Canvas) (bg : Background) : Except Unit Canvas :=
  if bg.type = "solid_color" then renderSolidBackground c bg.value
  else if bg.type = "gradient" then renderGradientBackground c bg
  else if bg.type = "image" then .ok (renderImageBackground loadImage c bg.value)
  else .ok c

/-- Models `AdRenderer._render_background` (ad_renderer.py:98-110): any exception
from the dispatched body is caught and the canvas is filled solid white —
`_render_solid_background(canvas, "#FFFFFF")`, which always parses (see
`hexToRgb_white`). -/
def renderBackground (loadImage : List Char → Except Unit (ℕ × ℕ → RGB))
    (c : Canvas) (bg : Background) : Canvas :=
  match renderBackgroundCore loadImage c bg with
  | .ok c2 => c2
  | .error _ => solidFill c (255, 255, 255)

/-! ### The top-level render call (`AdRenderer.render_ad`, ad_renderer.py:51-92) -/

/-- Everything `render_ad` does between canvas creation and saving, all of it
exception-free: background rendering and per-element rendering absorb their
own failures, and `_optimize_final_image` falls back to the unoptimized canvas
(`withFallback`). -/
def renderPipeline (loadImage : List Char → Except Unit (ℕ × ℕ → RGB))
    (body : Canvas → AdElement → Except (Canvas × Unit) Canvas)
    (optimizeCore : Canvas → Except Unit Canvas)
    (bg : Background) (elements : List AdElement) (c : Canvas) : Canvas :=
  withFallback optimizeCore (renderElements body (renderBackground loadImage c bg) (sortByZ elements))

/-- Models `AdRenderer.render_ad` (ad_renderer.py:51-92): the whole body runs inside
one `try/except`; the fallible steps that can actually reach that handler are
canvas allocation (`createCanvas`, modelling `_create_canvas`) and the final
`save` — every other failure is absorbed on the way.  Returns `True` on
success and `False` when the handler fires. -/
def renderAd (createCanvas : Except Unit Canvas)
    (loadImage : List Char → Except Unit (ℕ × ℕ → RGB))
    (body : Canvas → AdElement → Except (Canvas × Unit) Canvas)
    (optimizeCore : Canvas → Except Unit Canvas)
    (save : Canvas → Except Unit Unit)
    (bg : Background) (elements : List AdElement) : Bool :=
  match (do
    let c ← createCanvas
    save (renderPipeline loadImage body optimizeCore bg elements c) : Except Unit Unit) with
  | .ok _ => true
  | .error _ => false

/-! ## Supporting lemmas -/

theorem hexDigit?_of_ws {c : Char} (hw : c.isWhitespace = true) : hexDigit? c = none := by
  simp [Char.isWhitespace] at hw
  rcases hw with ((h | h) | h) | h <;> subst h <;> decide

theorem hexDigit?_not_ws {c : Char} {d : ℤ} (h : hexDigit? c = some d) :
    c.isWhitespace = false := by
  cases hw : c.isWhitespace
  · rfl
  · rw [hexDigit?_of_ws hw] at h
    cases h

theorem hexDigit?_not_plus {c : Char} {d : ℤ} (h : hexDigit? c = some d) : ¬ c = '+' := by
  intro hc
  subst hc
  have h0 : hexDigit? '+' = none := by decide
  rw [h0] at h
  cases h

theorem hexDigit?_not_minus {c : Char} {d : ℤ} (h : hexDigit? c = some d) : ¬ c = '-' := by
  intro hc
  subst hc
  have h0 : hexDigit? '-' = none := by decide
  rw [h0] at h
  cases h

theorem hexDigit?_not_hash {c : Char} {d : ℤ} (h : hexDigit? c = some d) : ¬ c = '#' := by
  intro hc
  subst hc
  have h0 : hexDigit? '#' = none := by decide
  rw [h0] at h
  cases h

theorem pyIntHex2_pair {c1 c2 : Char} {d1 d2 : ℤ}
    (h1 : hexDigit? c1 = some d1) (h2 : hexDigit? c2 = some d2) :
    pyIntHex2 [c1, c2] = some (16 * d1 + d2) := by
  simp [pyIntHex2, hexDigit?_not_ws h1, hexDigit?_not_ws h2,
    hexDigit?_not_plus h1, hexDigit?_not_minus h1, h1, h2]

theorem pyIntHex2_dup_none {c : Char} (h : hexDigit? c = none) : pyIntHex2 [c, c] = none := by
  by_cases hw : c.isWhitespace = true
  · simp [pyIntHex2, hw, h]
  · by_cases hp : c = '+'
    · subst hp; decide
    · by_cases hm : c = '-'
      · subst hm; decide
      · simp [pyIntHex2, Bool.not_eq_true] at hw ⊢
        simp [hw, hp, hm, h]

/-! ## C7 — `hexToRgb` accepted and rejected inputs -/

/-- C7 counterexample: the claim says every string other than 3 or 6 hex
digits (besides 8-digit RGBA) fails with an error, but on the five-digit
string "abcde" `_hex_to_rgb` succeeds: the slices are "ab", "cd" and "e", and
`int("e", 16)` parses, giving `(171, 205, 14)` instead of an error. -/
theorem hexToRgb_len5_succeeds :
    hexToRgb "abcde".toList = some (171, 205, 14) ∧ hexToRgb "abcde".toList ≠ none := by
  decide

/-- C7 (amended): `_hex_to_rgb` accepts 3-digit hex (each digit duplicated,
channel value `17·d`) and 6-digit hex, with leading `'#'` stripped; it fails
on stripped lengths 0, 1, 2 and 4 and on a 3-character candidate containing a
non-hex character.  (Strings of length 5 or ≥ 7 whose two-character slices
parse — e.g. "abcde" — succeed instead of failing; 8-digit RGBA is read as its
first six digits here and handled with alpha only by `_hex_to_rgba`.) -/
theorem hexToRgb_amended :
    (∀ s : List Char, hexToRgb ('#' :: s) = hexToRgb s) ∧
    (∀ c1 c2 c3 : Char, ∀ d1 d2 d3 : ℤ,
      hexDigit? c1 = some d1 → hexDigit? c2 = some d2 → hexDigit? c3 = some d3 →
      hexToRgb [c1, c2, c3] = some (17 * d1, 17 * d2, 17 * d3)) ∧
    (∀ c1 c2 c3 c4 c5 c6 : Char, ∀ d1 d2 d3 d4 d5 d6 : ℤ,
      hexDigit? c1 = some d1 → hexDigit? c2 = some d2 → hexDigit? c3 = some d3 →
      hexDigit? c4 = some d4 → hexDigit? c5 = some d5 → hexDigit? c6 = some d6 →
      hexToRgb [c1, c2, c3, c4, c5, c6]
        = some (16 * d1 + d2, 16 * d3 + d4, 16 * d5 + d6)) ∧
    (∀ s : List Char,
      ((s.dropWhile (fun c => c = '#')).length = 0 ∨
       (s.dropWhile (fun c => c = '#')).length = 1 ∨
       (s.dropWhile (fun c => c = '#')).length = 2 ∨
       (s.dropWhile (fun c => c = '#')).length = 4) →
      hexToRgb s = none) ∧
    (∀ c1 c2 c3 : Char, ¬ c1 = '#' →
      (hexDigit? c1 = none ∨ hexDigit? c2 = none ∨ hexDigit? c3 = none) →
      hexToRgb [c1, c2, c3] = none) := by
  refine ⟨?_, ?_, ?_, ?_, ?_⟩
  · intro s
    simp [hexToRgb, List.dropWhile_cons]
  · intro c1 c2 c3 d1 d2 d3 h1 h2 h3
    have e1 : 16 * d1 + d1 = 17 * d1 := by ring
    have e2 : 16 * d2 + d2 = 17 * d2 := by ring
    have e3 : 16 * d3 + d3 = 17 * d3 := by ring
    simp [hexToRgb, List.dropWhile_cons, hexDigit?_not_hash h1, dupEach, pySlice,
      pyIntHex2_pair h1 h1, pyIntHex2_pair h2 h2, pyIntHex2_pair h3 h3, e1, e2, e3]
  · intro c1 c2 c3 c4 c5 c6 d1 d2 d3 d4 d5 d6 h1 h2 h3 h4 h5 h6
    simp [hexToRgb, List.dropWhile_cons, hexDigit?_not_hash h1, pySlice,
      pyIntHex2_pair h1 h2, pyIntHex2_pair h3 h4, pyIntHex2_pair h5 h6]
  · intro s hlen
    have hne3 : ¬ (s.dropWhile (fun c => c = '#')).length = 3 := by
      rcases hlen with h | h | h | h <;> omega
    have hle : (s.dropWhile (fun c => c = '#')).length ≤ 4 := by
      rcases hlen with h | h | h | h <;> omega
    have hdrop : (s.dropWhile (fun c => c = '#')).drop 4 = [] :=
      List.drop_eq_nil_of_le hle
    simp only [hexToRgb, hne3, if_false, pySlice, hdrop, List.take_nil]
    cases hp1 : pyIntHex2 ((s.dropWhile (fun c => c = '#')).drop 0 |>.take 2) <;>
      cases hp2 : pyIntHex2 ((s.dropWhile (fun c => c = '#')).drop 2 |>.take 2) <;>
        simp [pyIntHex2]
  · intro c1 c2 c3 hne hd
    have hlist : [c1, c2, c3].dropWhile (fun c => c = '#') = [c1, c2, c3] := by
      simp [List.dropWhile_cons, hne]
    rcases hd with h | h | h
    · simp [hexToRgb, hlist, dupEach, pySlice, pyIntHex2_dup_none h]
    · cases hp1 : pyIntHex2 [c1, c1] <;>
        simp [hexToRgb, hlist, dupEach, pySlice, pyIntHex2_dup_none h, hp1]
    · cases hp1 : pyIntHex2 [c1, c1] <;> cases hp2 : pyIntHex2 [c2, c2] <;>
        simp [hexToRgb, hlist, dupEach, pySlice, pyIntHex2_dup_none h, hp1, hp2]

/-- Witness for `hexToRgb_amended`: the 3-digit input "f00" parses to
(255, 0, 0) = (17·15, 17·0, 17·0). -/
theorem hexToRgb_amended_witness : hexToRgb "f00".toList = some (255, 0, 0) := by
  have h := hexToRgb_amended.2.1 'f' '0' '0' 15 0 0 (by decide) (by decide) (by decide)
  exact h

/-! ## C1 — per-element failure isolation in the element loop -/

theorem renderElementCaught_error {E : Type}
    {body : Canvas → AdElement → Except (Canvas × E) Canvas}
    {c c2 : Canvas} {e : AdElement} {err : E} (h : body c e = .error (c2, err)) :
    renderElementCaught body c e = c2 := by
  unfold renderElementCaught
  rw [h]

/-- C1 counterexample: the failing element is NOT omitted from the output.  A
button renderer that — like `_render_button_element` — first fills the button
background (ad_renderer.py:249) and only then raises on an unparsable text
colour (ad_renderer.py:273) leaves the partial drawing on the canvas: the
loop over the single failing element paints pixel (0,0) of an all-black
canvas blue, while the loop over no elements leaves it black, so
`renderElements (pre ++ [e] ++ post) = renderElements (pre ++ post)` fails
even though the dispatch for `e` raises on every canvas state. -/
theorem elementFailurePartialDraw :
    (renderElements
        (dispatchElement ((fun c _ => .ok c) : Canvas → AdElement → Except (Canvas × Unit) Canvas)
          (fun c _ => .error (solidFill c (0, 0, 255), ())) (fun c _ => .ok c)
          (fun c _ => .ok c) (fun c _ => .ok c))
        ⟨1, 1, fun _ => (0, 0, 0)⟩ [⟨"b1", "button", "Buy", 1⟩]).pix (0, 0) = (0, 0, 255) ∧
    ¬ (renderElements
        (dispatchElement ((fun c _ => .ok c) : Canvas → AdElement → Except (Canvas × Unit) Canvas)
          (fun c _ => .error (solidFill c (0, 0, 255), ())) (fun c _ => .ok c)
          (fun c _ => .ok c) (fun c _ => .ok c))
        ⟨1, 1, fun _ => (0, 0, 0)⟩ []).pix (0, 0) = (0, 0, 255) := by
  constructor
  · rfl
  · decide

/-- C1 (amended): an exception raised in one element's renderer is caught by
`_render_element`'s `try/except` and never propagates out of the per-element
dispatch, and rendering proceeds to the next element in order — the loop over
`pre ++ [e] ++ post` continues through `post` from whatever canvas state `e`'s
caught attempt left (first conjunct, with no hypothesis on `e` at all); but
the failing element is omitted from the output only when its renderer raises
before mutating the canvas (second conjunct): in-place mutations made before
the raise persist, as the counterexample shows. -/
theorem elementFailureIsolated {E : Type}
    (rText rButton rLogo rImage rBgEl : Canvas → AdElement → Except (Canvas × E) Canvas)
    (c : Canvas) (pre post : List AdElement) (e : AdElement) :
    (renderElements (dispatchElement rText rButton rLogo rImage rBgEl) c (pre ++ e :: post)
      = renderElements (dispatchElement rText rButton rLogo rImage rBgEl)
          (renderElementCaught (dispatchElement rText rButton rLogo rImage rBgEl)
            (renderElements (dispatchElement rText rButton rLogo rImage rBgEl) c pre) e)
          post) ∧
    ((∀ c' : Canvas,
        ∃ err, dispatchElement rText rButton rLogo rImage rBgEl c' e = .error (c', err)) →
      renderElements (dispatchElement rText rButton rLogo rImage rBgEl) c (pre ++ e :: post)
        = renderElements (dispatchElement rText rButton rLogo rImage rBgEl) c (pre ++ post)) := by
  constructor
  · unfold renderElements
    rw [List.foldl_append, List.foldl_cons]
  · intro hfail
    unfold renderElements
    rw [List.foldl_append, List.foldl_append, List.foldl_cons]
    obtain ⟨err, herr⟩ :=
      hfail (pre.foldl (renderElementCaught (dispatchElement rText rButton rLogo rImage rBgEl)) c)
    rw [renderElementCaught_error herr]

/-- Witness for `elementFailureIsolated`: a text renderer that raises before
touching the canvas; the loop over the single failing element equals the loop
over no elements. -/
theorem elementFailureIsolated_witness :
    renderElements
      (dispatchElement ((fun c _ => .error (c, ())) : Canvas → AdElement → Except (Canvas × Unit) Canvas)
        (fun c _ => .ok c) (fun c _ => .ok c) (fun c _ => .ok c) (fun c _ => .ok c))
      ⟨1, 1, fun _ => (0, 0, 0)⟩ [⟨"t1", "text", "Hello", 1⟩]
    = renderElements
      (dispatchElement ((fun c _ => .error (c, ())) : Canvas → AdElement → Except (Canvas × Unit) Canvas)
        (fun c _ => .ok c) (fun c _ => .ok c) (fun c _ => .ok c) (fun c _ => .ok c))
      ⟨1, 1, fun _ => (0, 0, 0)⟩ [] :=
  (elementFailureIsolated _ _ _ _ _ _ [] [] _).2 (fun _ => ⟨(), rfl⟩)

/-! ## C9 / C2 — `process_logo` result shape -/

/-- C9: `process_logo` is all-or-nothing.  Whatever the fallible primitives
do, the returned mapping's key list is either empty (the `except` branch fired
and `{}` was returned) or exactly the five variant names in creation order —
never a non-empty proper subset. -/
theorem processLogo_all_or_nothing {Img E : Type} (openResize : Except E Img)
    (mkdirOut : Except E Unit) (save : LogoVariant → Img → Except E Unit)
    (removeBg : Img → Except E Img) (monoCore : String → Img → Except E Img)
    (contrastCore : Img → Except E Img) :
    (processLogo openResize mkdirOut save removeBg monoCore contrastCore).map Prod.fst = []
    ∨ (processLogo openResize mkdirOut save removeBg monoCore contrastCore).map Prod.fst
        = [LogoVariant.original, LogoVariant.transparent, LogoVariant.white,
           LogoVariant.black, LogoVariant.highContrast] := by
  unfold processLogo
  cases openResize with
  | error e => left; rfl
  | ok img =>
    cases mkdirOut with
    | error e => left; rfl
    | ok u =>
      cases u
      cases h1 : save .original img with
      | error e => left; simp [Bind.bind, Except.bind, Functor.map, Except.map, Pure.pure, Except.pure, h1]
      | ok u =>
        cases u
        cases h2 : save .transparent (withFallback removeBg img) with
        | error e => left; simp [Bind.bind, Except.bind, Functor.map, Except.map, Pure.pure, Except.pure, h1, h2]
        | ok u =>
          cases u
          cases h3 : save .white (withFallback (monoCore "white") (withFallback removeBg img)) with
          | error e => left; simp [Bind.bind, Except.bind, Functor.map, Except.map, Pure.pure, Except.pure, h1, h2, h3]
          | ok u =>
            cases u
            cases h4 : save .black (withFallback (monoCore "black") (withFallback removeBg img)) with
            | error e => left; simp [Bind.bind, Except.bind, Functor.map, Except.map, Pure.pure, Except.pure, h1, h2, h3, h4]
            | ok u =>
              cases u
              cases h5 : save .highContrast (withFallback contrastCore (withFallback removeBg img)) with
              | error e => left; simp [Bind.bind, Except.bind, Functor.map, Except.map, Pure.pure, Except.pure, h1, h2, h3, h4, h5]
              | ok u =>
                cases u
                right; simp [Bind.bind, Except.bind, Functor.map, Except.map, Pure.pure, Except.pure, h1, h2, h3, h4, h5]

/-- C2 counterexample: with a valid input image and background removal and
every image transform succeeding, a failure while writing the `white` variant
makes `process_logo` return the empty mapping — the `black` and
`high_contrast` variants (and the already-written ones) are not returned, so
a failure producing one variant does prevent producing the others, and the
result does not contain the five keys. -/
theorem processLogo_partial_failure_drops_all :
    processLogo (Except.ok () : Except Unit Unit) (.ok ())
        (fun v _ => if v = .white then .error () else .ok ())
        (fun i => .ok i) (fun _ i => .ok i) (fun i => .ok i) = [] ∧
    (processLogo (Except.ok () : Except Unit Unit) (.ok ())
        (fun v _ => if v = .white then .error () else .ok ())
        (fun i => .ok i) (fun _ i => .ok i) (fun i => .ok i)).map Prod.fst
      ≠ [LogoVariant.original, LogoVariant.transparent, LogoVariant.white,
         LogoVariant.black, LogoVariant.highContrast] := by
  decide

/-- C2 (amended): when the input image opens, the output directory is created
and every per-variant file write succeeds, `process_logo` returns exactly the
five keys {original, transparent, white, black, high_contrast} for arbitrary
(fallible) background-removal, monochrome and contrast cores — the internal
fallbacks absorb their failures; in particular if background removal fails the
un-removed image is returned under `transparent` (and feeds the derived
variants).  Only a failure of a variant file write itself (see the
counterexample) aborts the call and yields the empty mapping. -/
theorem processLogo_keys_of_saves_ok {Img E : Type} (openResize : Except E Img)
    (mkdirOut : Except E Unit) (save : LogoVariant → Img → Except E Unit)
    (removeBg : Img → Except E Img) (monoCore : String → Img → Except E Img)
    (contrastCore : Img → Except E Img) (img : Img)
    (hopen : openResize = .ok img) (hmk : mkdirOut = .ok ())
    (hsave : ∀ v i, save v i = .ok ()) :
    ((processLogo openResize mkdirOut save removeBg monoCore contrastCore).map Prod.fst
      = [LogoVariant.original, LogoVariant.transparent, LogoVariant.white,
         LogoVariant.black, LogoVariant.highContrast]) ∧
    (∀ err, removeBg img = .error err →
      processLogo openResize mkdirOut save removeBg monoCore contrastCore
        = [(LogoVariant.original, img), (LogoVariant.transparent, img),
           (LogoVariant.white, withFallback (monoCore "white") img),
           (LogoVariant.black, withFallback (monoCore "black") img),
           (LogoVariant.highContrast, withFallback contrastCore img)]) := by
  subst hopen
  constructor
  · unfold processLogo
    simp [Bind.bind, Except.bind, Functor.map, Except.map, Pure.pure, Except.pure, hmk, hsave]
  · intro err hrem
    unfold processLogo
    simp [Bind.bind, Except.bind, Functor.map, Except.map, Pure.pure, Except.pure, hmk, hsave, withFallback, hrem]

/-- Witness for `processLogo_keys_of_saves_ok`: all writes succeed, background
removal fails, the cores shift a natural-number "image"; the un-removed image
appears under `transparent` and all five variants are returned. -/
theorem processLogo_keys_witness :
    processLogo (Except.ok 7 : Except Unit ℕ) (.ok ()) (fun _ _ => .ok ())
        (fun _ => .error ()) (fun _ i => .ok (i + 1)) (fun i => .ok (i + 2))
      = [(LogoVariant.original, 7), (LogoVariant.transparent, 7),
         (LogoVariant.white, 8), (LogoVariant.black, 8), (LogoVariant.highContrast, 9)] := by
  have h := (processLogo_keys_of_saves_ok (Except.ok 7 : Except Unit ℕ) (.ok ())
    (fun _ _ => .ok ()) (fun _ => .error ()) (fun _ i => .ok (i + 1)) (fun i => .ok (i + 2))
    7 rfl rfl (fun _ _ => rfl)).2 () rfl
  simpa [withFallback] using h

/-! ## C10 — `render_ad` never raises; `True`/`False` result -/

/-- C10: `render_ad` is a total `Bool`-valued function (no exception reaches
the caller): it returns `True` exactly when canvas allocation succeeds and the
final file write succeeds, and `False` when either fails — background,
per-element and optimization failures having been absorbed inside
`renderPipeline` on the way. -/
theorem renderAd_result (createCanvas : Except Unit Canvas)
    (loadImage : List Char → Except Unit (ℕ × ℕ → RGB))
    (body : Canvas → AdElement → Except (Canvas × Unit) Canvas)
    (optimizeCore : Canvas → Except Unit Canvas)
    (save : Canvas → Except Unit Unit)
    (bg : Background) (elements : List AdElement) :
    (createCanvas = .error () →
      renderAd createCanvas loadImage body optimizeCore save bg elements = false) ∧
    (∀ c : Canvas, createCanvas = .ok c →
      (save (renderPipeline loadImage body optimizeCore bg elements c) = .ok () →
        renderAd createCanvas loadImage body optimizeCore save bg elements = true) ∧
      (save (renderPipeline loadImage body optimizeCore bg elements c) = .error () →
        renderAd createCanvas loadImage body optimizeCore save bg elements = false)) := by
  refine ⟨?_, ?_⟩
  · intro h
    simp [renderAd, h, Bind.bind, Except.bind]
  · intro c hc
    constructor
    · intro hs
      simp [renderAd, hc, hs, Bind.bind, Except.bind]
    · intro hs
      simp [renderAd, hc, hs, Bind.bind, Except.bind]

/-- Witness for `renderAd_result`: with allocation and saving both succeeding,
`render_ad` returns `True`. -/
theorem renderAd_result_witness :
    renderAd (.ok ⟨1, 1, fun _ => (0, 0, 0)⟩) (fun _ => .error ())
      (fun c _ => .ok c) (fun c => .ok c) (fun _ => .ok ())
      ⟨"solid_color", "#FFFFFF".toList, none, none⟩ [] = true :=
  ((renderAd_result (.ok ⟨1, 1, fun _ => (0, 0, 0)⟩) (fun _ => .error ())
      (fun c _ => .ok c) (fun c => .ok c) (fun _ => .ok ())
      ⟨"solid_color", "#FFFFFF".toList, none, none⟩ []).2
    ⟨1, 1, fun _ => (0, 0, 0)⟩ rfl).1 rfl

/-! ## C6 — `extract_brand_colors` -/

theorem dedupAux_eq_append {α : Type} [DecidableEq α] :
    ∀ (l u : List α), ∃ t, dedupAux u l = u ++ t
  | [], u => ⟨[], by simp [dedupAux]⟩
  | c :: cs, u => by
    by_cases h : c ∈ u
    · obtain ⟨t, ht⟩ := dedupAux_eq_append cs u
      exact ⟨t, by simp [dedupAux, h, ht]⟩
    · obtain ⟨t, ht⟩ := dedupAux_eq_append cs (u ++ [c])
      exact ⟨c :: t, by simp [dedupAux, h, ht]⟩

theorem dedupAux_nodup {α : Type} [DecidableEq α] :
    ∀ (l u : List α), u.Nodup → (dedupAux u l).Nodup
  | [], u, h => by simpa [dedupAux] using h
  | c :: cs, u, h => by
    by_cases hc : c ∈ u
    · simpa [dedupAux, hc] using dedupAux_nodup cs u h
    · have hu : (u ++ [c]).Nodup := by
        simp [List.nodup_append, h, hc]
      simpa [dedupAux, hc] using dedupAux_nodup cs (u ++ [c]) hu

/-- C6: on any ColorThief failure `extract_brand_colors` returns exactly the
fixed fallback `["#000000", "#FFFFFF"]`; on success it returns an ordered
duplicate-free list of at most `num_colors` hex strings whose first entry is
the separately computed dominant colour (moved to the front when already
present in the palette, prepended otherwise).  The hypothesis `hguard`
records the colorthief package's behaviour that
`get_palette(color_count=n)` raises for `n < 2` (the MMCQ quantizer's
`max_color < 2` guard), so a successful palette implies `num_colors ≥ 2` and
the head property needs no extra side condition: degenerate requested counts
can only reach the fallback branch. -/
theorem extractBrandColors_spec {E : Type} (getColor : Except E (ℕ × ℕ × ℕ))
    (getPalette : ℕ → Except E (List (ℕ × ℕ × ℕ))) (numColors : ℕ)
    (hguard : ∀ n, n < 2 → ∀ p, ¬ getPalette n = .ok p) :
    (∀ err, getColor = .error err →
      extractBrandColors getColor getPalette numColors
        = ["#000000".toList, "#FFFFFF".toList]) ∧
    (∀ d err, getColor = .ok d → getPalette numColors = .error err →
      extractBrandColors getColor getPalette numColors
        = ["#000000".toList, "#FFFFFF".toList]) ∧
    (∀ d p, getColor = .ok d → getPalette numColors = .ok p →
      (extractBrandColors getColor getPalette numColors).Nodup ∧
      (extractBrandColors getColor getPalette numColors).length ≤ numColors ∧
      (extractBrandColors getColor getPalette numColors).head? = some (rgbToHex d)) := by
  refine ⟨?_, ?_, ?_⟩
  · intro err h
    simp [extractBrandColors, h, Bind.bind, Except.bind]
  · intro d err hc hp
    simp [extractBrandColors, hc, hp, Bind.bind, Except.bind, Pure.pure, Except.pure]
  · intro d p hc hp
    have hn : 1 ≤ numColors := by
      by_contra h
      push_neg at h
      exact hguard numColors (by omega) p hp
    have hshape : ∃ rest, extractBrandColors getColor getPalette numColors
        = (dedupAux [] (rgbToHex d :: rest)).take numColors := by
      by_cases hmem : rgbToHex d ∈ p.map rgbToHex
      · exact ⟨(p.map rgbToHex).erase (rgbToHex d),
          by simp [extractBrandColors, hc, hp, Bind.bind, Except.bind, Pure.pure,
            Except.pure, hmem]⟩
      · exact ⟨p.map rgbToHex,
          by simp [extractBrandColors, hc, hp, Bind.bind, Except.bind, Pure.pure,
            Except.pure, hmem]⟩
    obtain ⟨rest, hshape⟩ := hshape
    have hded : dedupAux [] (rgbToHex d :: rest) = rgbToHex d :: (dedupAux [rgbToHex d] rest).tail := by
      obtain ⟨t, ht⟩ := dedupAux_eq_append rest [rgbToHex d]
      simp [dedupAux, ht]
    refine ⟨?_, ?_, ?_⟩
    · rw [hshape]
      exact (List.take_sublist _ _).nodup (dedupAux_nodup _ _ (by simp))
    · rw [hshape]
      exact List.length_take_le _ _
    · rw [hshape, hded]
      obtain ⟨m, rfl⟩ : ∃ m, numColors = m + 1 := ⟨numColors - 1, by omega⟩
      simp

/-- Witness for `extractBrandColors_spec`: a palette source that raises below
two colours (as colorthief does) and succeeds at five with a duplicate-laden
palette yields a deduplicated list headed by the dominant colour. -/
theorem extractBrandColors_spec_witness :
    (extractBrandColors (Except.ok (255, 0, 0) : Except Unit (ℕ × ℕ × ℕ))
      (fun n => if n < 2 then .error () else .ok [(0, 0, 0), (255, 0, 0), (0, 0, 0)]) 5).Nodup ∧
    (extractBrandColors (Except.ok (255, 0, 0) : Except Unit (ℕ × ℕ × ℕ))
      (fun n => if n < 2 then .error () else .ok [(0, 0, 0), (255, 0, 0), (0, 0, 0)]) 5).length ≤ 5 ∧
    (extractBrandColors (Except.ok (255, 0, 0) : Except Unit (ℕ × ℕ × ℕ))
      (fun n => if n < 2 then .error () else .ok [(0, 0, 0), (255, 0, 0), (0, 0, 0)]) 5).head?
      = some (rgbToHex (255, 0, 0)) := by
  have h := (extractBrandColors_spec (Except.ok (255, 0, 0) : Except Unit (ℕ × ℕ × ℕ))
    (fun n => if n < 2 then .error () else .ok [(0, 0, 0), (255, 0, 0), (0, 0, 0)]) 5
    (fun n hn p hp => by simp [hn] at hp)).2.2 (255, 0, 0)
    [(0, 0, 0), (255, 0, 0), (0, 0, 0)] rfl rfl
  exact ⟨h.1, h.2.1, h.2.2⟩

/-! ## C8 — background fallbacks -/

/-- The white used by every fallback parses unconditionally, so the `except`
branch of `_render_background` cannot itself raise. -/
theorem hexToRgb_white : hexToRgb "#FFFFFF".toList = some (255, 255, 255) := by
  decide

/-- C8 counterexample: a gradient background with a single gradient colour but
a parsable `value` of `"#FF0000"` renders a solid red fill, not the solid
white the claim requires for every malformed background — the `< 2` branch of
`_render_gradient_background` falls back to `background.value`, and white is
used only when that value itself fails to parse. -/
theorem gradientFallback_not_white :
    (renderBackground (fun _ => .error ()) ⟨2, 2, fun _ => (0, 0, 0)⟩
        ⟨"gradient", "#FF0000".toList, some "vertical", some ["#00FF00".toList]⟩).pix (0, 0)
      = (255, 0, 0) ∧
    ¬ (renderBackground (fun _ => .error ()) ⟨2, 2, fun _ => (0, 0, 0)⟩
        ⟨"gradient", "#FF0000".toList, some "vertical", some ["#00FF00".toList]⟩).pix (0, 0)
      = (255, 255, 255) := by
  constructor
  · rfl
  · decide

/-- C8 (amended): malformed backgrounds never abort the render
(`renderBackground` is total).  An unparsable solid colour falls back to a
white fill, as does an unloadable background image; but a gradient with fewer
than two colours (or no colour list) falls back to a solid fill of the
background's `value` colour, reaching white only when that value itself fails
to parse. -/
theorem renderBackground_fallbacks (loadImage : List Char → Except Unit (ℕ × ℕ → RGB))
    (c : Canvas) :
    (∀ v dir cols, hexToRgb v = none →
      renderBackground loadImage c ⟨"solid_color", v, dir, cols⟩
        = solidFill c (255, 255, 255)) ∧
    (∀ v dir cols, loadImage v = .error () →
      renderBackground loadImage c ⟨"image", v, dir, cols⟩
        = solidFill c (255, 255, 255)) ∧
    (∀ v dir cols rgb, (cols = none ∨ ∃ l, cols = some l ∧ l.length < 2) →
      hexToRgb v = some rgb →
      renderBackground loadImage c ⟨"gradient", v, dir, cols⟩ = solidFill c rgb) ∧
    (∀ v dir cols, (cols = none ∨ ∃ l, cols = some l ∧ l.length < 2) →
      hexToRgb v = none →
      renderBackground loadImage c ⟨"gradient", v, dir, cols⟩
        = solidFill c (255, 255, 255)) := by
  refine ⟨?_, ?_, ?_, ?_⟩
  · intro v dir cols hv
    simp [renderBackground, renderBackgroundCore, renderSolidBackground, hv]
  · intro v dir cols hl
    simp [renderBackground, renderBackgroundCore, renderImageBackground, hl]
  · intro v dir cols rgb hcols hv
    rcases hcols with rfl | ⟨l, rfl, hlen⟩
    · simp [renderBackground, renderBackgroundCore, renderGradientBackground,
        renderSolidBackground, hv]
    · simp [renderBackground, renderBackgroundCore, renderGradientBackground,
        renderSolidBackground, hv, hlen]
  · intro v dir cols hcols hv
    rcases hcols with rfl | ⟨l, rfl, hlen⟩
    · simp [renderBackground, renderBackgroundCore, renderGradientBackground,
        renderSolidBackground, hv]
    · simp [renderBackground, renderBackgroundCore, renderGradientBackground,
        renderSolidBackground, hv, hlen]

/-- Witness for `renderBackground_fallbacks`: the unparsable solid colour
"xyz" produces the white fill. -/
theorem renderBackground_fallbacks_witness :
    renderBackground (fun _ => .error ()) ⟨2, 2, fun _ => (0, 0, 0)⟩
        ⟨"solid_color", "xyz".toList, none, none⟩
      = solidFill ⟨2, 2, fun _ => (0, 0, 0)⟩ (255, 255, 255) :=
  (renderBackground_fallbacks (fun _ => .error ()) ⟨2, 2, fun _ => (0, 0, 0)⟩).1
    "xyz".toList none none (by decide)

/-! ## C4 — stable z-ordering and draw order -/

theorem filter_orderedInsert (k : ℤ) (e : AdElement) :
    ∀ l : List AdElement,
      (List.orderedInsert (fun a b => a.z_index ≤ b.z_index) e l).filter
          (fun x => decide (x.z_index = k))
        = if e.z_index = k
          then e :: l.filter (fun x => decide (x.z_index = k))
          else l.filter (fun x => decide (x.z_index = k))
  | [] => by
    by_cases he : e.z_index = k <;> simp [List.orderedInsert, he]
  | f :: fs => by
    by_cases hef : e.z_index ≤ f.z_index
    · simp only [List.orderedInsert, if_pos hef]
      by_cases he : e.z_index = k <;> simp [List.filter_cons, he]
    · simp only [List.orderedInsert, if_neg hef]
      by_cases he : e.z_index = k
      · have hf : ¬ f.z_index = k := fun hf => hef (le_of_eq (he.trans hf.symm))
        simp [List.filter_cons, he, hf, filter_orderedInsert k e fs]
      · by_cases hf : f.z_index = k <;>
          simp [List.filter_cons, he, hf, filter_orderedInsert k e fs]

theorem filter_sortByZ (k : ℤ) :
    ∀ l : List AdElement,
      (sortByZ l).filter (fun x => decide (x.z_index = k))
        = l.filter (fun x => decide (x.z_index = k))
  | [] => rfl
  | e :: es => by
    have ih := filter_sortByZ k es
    simp only [sortByZ] at ih ⊢
    simp only [List.insertionSort]
    rw [filter_orderedInsert, ih, List.filter_cons]
    by_cases he : e.z_index = k <;> simp [he]

/-- C4: `render_ad` stable-sorts the elements by `z_index` before drawing:
the sorted list is ascending in `z_index`; for every value `k` the elements
with `z_index = k` keep their original relative order (the filter
characterization of stability); and consequently, for two elements that both
cover a pixel `p`, the drawn pixel is the higher-`z_index` element's colour,
the later-listed element winning ties. -/
theorem zOrder_stable_draw :
    (∀ l : List AdElement,
      List.Sorted (fun a b : AdElement => a.z_index ≤ b.z_index) (sortByZ l)) ∧
    (∀ (k : ℤ) (l : List AdElement),
      (sortByZ l).filter (fun x => decide (x.z_index = k))
        = l.filter (fun x => decide (x.z_index = k))) ∧
    (∀ (paint : AdElement → ℕ × ℕ → Option RGB) (c : Canvas) (a b : AdElement)
        (p : ℕ × ℕ) (ca cb : RGB), paint a p = some ca → paint b p = some cb →
      (renderSorted paint c [a, b]).pix p
        = if a.z_index ≤ b.z_index then cb else ca) := by
  refine ⟨?_, filter_sortByZ, ?_⟩
  · intro l
    haveI : IsTotal AdElement (fun a b => a.z_index ≤ b.z_index) :=
      ⟨fun a b => le_total a.z_index b.z_index⟩
    haveI : IsTrans AdElement (fun a b => a.z_index ≤ b.z_index) :=
      ⟨fun _ _ _ h1 h2 => le_trans h1 h2⟩
    exact List.sorted_insertionSort _ l
  · intro paint c a b p ca cb hpa hpb
    by_cases hab : a.z_index ≤ b.z_index <;>
      simp [renderSorted, sortByZ, List.insertionSort, List.orderedInsert, hab,
        drawElement, hpa, hpb]

/-- Witness for `zOrder_stable_draw`: two overlapping elements with z-indices
3 and 1; the pixel shows the z = 3 element's colour. -/
theorem zOrder_stable_draw_witness :
    (renderSorted (fun e _ => some (e.z_index, 0, 0)) ⟨4, 4, fun _ => (9, 9, 9)⟩
        [⟨"a", "text", "x", 3⟩, ⟨"b", "text", "y", 1⟩]).pix (0, 0) = (3, 0, 0) := by
  have h := zOrder_stable_draw.2.2 (fun e _ => some (e.z_index, 0, 0))
    ⟨4, 4, fun _ => (9, 9, 9)⟩ ⟨"a", "text", "x", 3⟩ ⟨"b", "text", "y", 1⟩
    (0, 0) (3, 0, 0) (1, 0, 0) rfl rfl
  simpa using h

/-! ## C3 — word wrap -/

theorem joinSpace_single (w : Word) : joinSpace [w] = w := by
  simp [joinSpace, List.intercalate]

/-- Every word `str.split()` produces is non-empty and whitespace-free. -/
theorem pySplitAux_words :
    ∀ (s : List Char) (acc : Word), (∀ c ∈ acc, c.isWhitespace = false) →
      ∀ w ∈ pySplitAux acc s, w ≠ [] ∧ ∀ c ∈ w, c.isWhitespace = false
  | [], acc, hacc => by
    by_cases h : acc = []
    · simp [pySplitAux, h]
    · intro w hw
      simp [pySplitAux, h] at hw
      subst hw
      refine ⟨by simpa using h, ?_⟩
      intro c hc
      exact hacc c (List.mem_reverse.mp hc)
  | ch :: cs, acc, hacc => by
    by_cases hws : ch.isWhitespace = true
    · by_cases h : acc = []
      · intro w hw
        simp [pySplitAux, hws, h] at hw
        exact pySplitAux_words cs [] (by simp) w hw
      · intro w hw
        simp [pySplitAux, hws, h] at hw
        rcases hw with rfl | hw
        · refine ⟨by simpa using h, ?_⟩
          intro c hc
          exact hacc c (List.mem_reverse.mp hc)
        · exact pySplitAux_words cs [] (by simp) w hw
    · intro w hw
      have hws' : ch.isWhitespace = false := by simpa using hws
      simp [pySplitAux, hws'] at hw
      refine pySplitAux_words cs (ch :: acc) ?_ w hw
      intro c hc
      rcases List.mem_cons.mp hc with rfl | hc
      · exact hws'
      · exact hacc c hc

/-- Python `str.split()` of a non-empty whitespace-free string is the string alone. -/
theorem pySplitAux_single :
    ∀ (w : List Char) (acc : Word), w ≠ [] → (∀ c ∈ w, c.isWhitespace = false) →
      pySplitAux acc w = [acc.reverse ++ w]
  | [], _, hne, _ => absurd rfl hne
  | ch :: cs, acc, _, hw => by
    have hch : ch.isWhitespace = false := hw ch (by simp)
    by_cases hcs : cs = []
    · subst hcs
      simp [pySplitAux, hch]
    · have hrec := pySplitAux_single cs (ch :: acc) hcs (fun c hc => hw c (by simp [hc]))
      simp [pySplitAux, hch, hrec]

theorem pySplit_single {w : List Char} (hne : w ≠ [])
    (hw : ∀ c ∈ w, c.isWhitespace = false) : pySplit w = [w] := by
  simpa [pySplit] using pySplitAux_single w [] hne hw

/-- The three branches of one `_wrap_text` loop iteration. -/
theorem wrapStep_cases (widthOf : List Char → ℚ) (maxWidth : ℤ)
    (st : List (List Char) × List Word) (w : Word) :
    (widthOf (joinSpace (st.2 ++ [w])) ≤ (maxWidth : ℚ) ∧
      wrapStep widthOf maxWidth st w = (st.1, st.2 ++ [w])) ∨
    (¬ widthOf (joinSpace (st.2 ++ [w])) ≤ (maxWidth : ℚ) ∧ st.2 ≠ [] ∧
      wrapStep widthOf maxWidth st w = (st.1 ++ [joinSpace st.2], [w])) ∨
    (¬ widthOf (joinSpace (st.2 ++ [w])) ≤ (maxWidth : ℚ) ∧ st.2 = [] ∧
      wrapStep widthOf maxWidth st w = (st.1 ++ [w], [])) := by
  by_cases hfit : widthOf (joinSpace (st.2 ++ [w])) ≤ (maxWidth : ℚ)
  · exact Or.inl ⟨hfit, by simp [wrapStep, hfit]⟩
  · by_cases hcur : st.2 = []
    · have hfit2 : ¬ widthOf (joinSpace [w]) ≤ (maxWidth : ℚ) := by
        simpa [hcur] using hfit
      exact Or.inr (Or.inr ⟨hfit, hcur, by simp [wrapStep, hfit2, hcur]⟩)
    · exact Or.inr (Or.inl ⟨hfit, hcur, by simp [wrapStep, hfit, hcur]⟩)

/-- After any loop iteration one of `lines`/`current_line` is non-empty. -/
theorem wrapStep_ne (widthOf : List Char → ℚ) (maxWidth : ℤ)
    (st : List (List Char) × List Word) (w : Word) :
    (wrapStep widthOf maxWidth st w).1 ≠ [] ∨ (wrapStep widthOf maxWidth st w).2 ≠ [] := by
  rcases wrapStep_cases widthOf maxWidth st w with ⟨_, h⟩ | ⟨_, _, h⟩ | ⟨_, _, h⟩ <;>
    simp [h]

theorem wrap_fold_ne (widthOf : List Char → ℚ) (maxWidth : ℤ) :
    ∀ (ws : List Word) (st : List (List Char) × List Word),
      (st.1 ≠ [] ∨ st.2 ≠ []) →
      ((ws.foldl (wrapStep widthOf maxWidth) st).1 ≠ [] ∨
        (ws.foldl (wrapStep widthOf maxWidth) st).2 ≠ [])
  | [], _, h => h
  | w :: ws, st, _ => by
    rw [List.foldl_cons]
    exact wrap_fold_ne widthOf maxWidth ws _ (wrapStep_ne widthOf maxWidth st w)

/-- Loop invariant of `_wrap_text`: every closed line is an input word or fits
within `maxWidth`, and `current_line` is empty, a single input word, or
joins to a string that fits. -/
theorem wrap_fold_ok (widthOf : List Char → ℚ) (maxWidth : ℤ) (ws0 : List Word) :
    ∀ (ws : List Word) (st : List (List Char) × List Word),
      (∀ x ∈ ws, x ∈ ws0) →
      (∀ l ∈ st.1, l ∈ ws0 ∨ widthOf l ≤ (maxWidth : ℚ)) →
      (st.2 = [] ∨ (∃ w ∈ ws0, st.2 = [w]) ∨ widthOf (joinSpace st.2) ≤ (maxWidth : ℚ)) →
      (∀ l ∈ (ws.foldl (wrapStep widthOf maxWidth) st).1,
          l ∈ ws0 ∨ widthOf l ≤ (maxWidth : ℚ)) ∧
      ((ws.foldl (wrapStep widthOf maxWidth) st).2 = [] ∨
        (∃ w ∈ ws0, (ws.foldl (wrapStep widthOf maxWidth) st).2 = [w]) ∨
        widthOf (joinSpace (ws.foldl (wrapStep widthOf maxWidth) st).2) ≤ (maxWidth : ℚ))
  | [], st, _, h1, h2 => ⟨h1, h2⟩
  | w :: ws, st, hmem, h1, h2 => by
    rw [List.foldl_cons]
    have hw0 : w ∈ ws0 := hmem w (by simp)
    have hmem' : ∀ x ∈ ws, x ∈ ws0 := fun x hx => hmem x (by simp [hx])
    rcases wrapStep_cases widthOf maxWidth st w with ⟨hfit, heq⟩ | ⟨hfit, hcur, heq⟩ |
      ⟨hfit, hcur, heq⟩
    · refine wrap_fold_ok widthOf maxWidth ws0 ws _ hmem' ?_ ?_
      · rw [heq]
        exact h1
      · rw [heq]
        right; right
        exact hfit
    · refine wrap_fold_ok widthOf maxWidth ws0 ws _ hmem' ?_ ?_
      · rw [heq]
        intro l hl
        rcases List.mem_append.mp hl with hl | hl
        · exact h1 l hl
        · have hjoin : l = joinSpace st.2 := by simpa using hl
          subst hjoin
          rcases h2 with hc | ⟨w', hw', hst⟩ | hc
          · exact absurd hc hcur
          · rw [hst, joinSpace_single]
            exact Or.inl hw'
          · exact Or.inr hc
      · rw [heq]
        right; left
        exact ⟨w, hw0, rfl⟩
    · refine wrap_fold_ok widthOf maxWidth ws0 ws _ hmem' ?_ ?_
      · rw [heq]
        intro l hl
        rcases List.mem_append.mp hl with hl | hl
        · exact h1 l hl
        · have hlw : l = w := by simpa using hl
          subst hlw
          exact Or.inl hw0
      · rw [heq]
        left
        rfl

/-- C3 counterexample: the single-space string is non-empty, yet
`_wrap_text` returns the empty list — `" ".split()` has no words, so no line
is ever produced, contradicting "at least one line for every non-empty
text". -/
theorem wrapText_whitespace_empty :
    wrapText (fun _ => 0) [' '] 100 = [] ∧ ¬ ([' '] : List Char) = [] := by
  decide

/-- C3 (amended): for every text containing at least one word (at least one
non-whitespace character), `_wrap_text` returns at least one line, and every
returned line with more than one word has rendered width at most `maxWidth`
(only a line consisting of a single too-wide input word may exceed it). -/
theorem wrapText_spec (widthOf : List Char → ℚ) (text : List Char) (maxWidth : ℤ)
    (hw : pySplit text ≠ []) :
    wrapText widthOf text maxWidth ≠ [] ∧
    ∀ l ∈ wrapText widthOf text maxWidth,
      1 < (pySplit l).length → widthOf l ≤ (maxWidth : ℚ) := by
  have hmain : ∀ l : List Char, (l ∈ pySplit text ∨ widthOf l ≤ (maxWidth : ℚ)) →
      1 < (pySplit l).length → widthOf l ≤ (maxWidth : ℚ) := by
    intro l hcase hlen
    rcases hcase with hmem | hwid
    · obtain ⟨hne, hnws⟩ := pySplitAux_words text [] (by simp) l hmem
      rw [pySplit_single hne hnws] at hlen
      simp at hlen
    · exact hwid
  obtain ⟨hlines, hcur⟩ := wrap_fold_ok widthOf maxWidth (pySplit text) (pySplit text)
    ([], []) (fun x hx => hx) (by simp) (by simp)
  constructor
  · rcases hsplit : pySplit text with _ | ⟨w, ws⟩
    · exact absurd hsplit hw
    · unfold wrapText flushLines
      rw [hsplit, List.foldl_cons]
      have hQ := wrap_fold_ne widthOf maxWidth ws (wrapStep widthOf maxWidth ([], []) w)
        (wrapStep_ne widthOf maxWidth ([], []) w)
      by_cases h2 : (ws.foldl (wrapStep widthOf maxWidth)
          (wrapStep widthOf maxWidth ([], []) w)).2 = []
      · rcases hQ with h1 | h1
        · simpa [h2] using h1
        · exact absurd h2 h1
      · simp [h2]
  · intro l hl
    unfold wrapText flushLines at hl
    by_cases h2 : ((pySplit text).foldl (wrapStep widthOf maxWidth) ([], [])).2 = []
    · simp [h2] at hl
      exact hmain l (hlines l hl)
    · simp [h2] at hl
      rcases hl with hl | rfl
      · exact hmain l (hlines l hl)
      · rcases hcur with hc | ⟨w', hw', hst⟩ | hc
        · exact absurd hc h2
        · rw [hst, joinSpace_single]
          exact hmain w' (Or.inl hw')
        · intro _
          exact hc

/-- Witness for `wrapText_spec`: "hello world" wrapped at width 5 (width =
character count) yields a non-empty line list. -/
theorem wrapText_spec_witness :
    wrapText (fun l => (l.length : ℚ)) "hello world".toList 5 ≠ [] :=
  (wrapText_spec (fun l => (l.length : ℚ)) "hello world".toList 5 (by decide)).1

/-! ## C5 — colour interpolation -/

theorem pyInt_intCast (z : ℤ) : pyInt (z : ℚ) = z := by
  unfold pyInt
  split
  · exact Int.floor_intCast z
  · rw [show (-(z:ℚ)) = ((-z : ℤ) : ℚ) by push_cast; ring, Int.floor_intCast]
    ring

theorem pyInt_zero : pyInt 0 = 0 := by
  norm_num [pyInt]

theorem pyInt_one : pyInt 1 = 1 := by
  norm_num [pyInt]

theorem interpolateColors_single (c : RGB) (t : ℚ) : interpolateColors [c] t = c := by
  simp [interpolateColors]

theorem interpolateColors_pair_zero (a b : RGB) : interpolateColors [a, b] 0 = a := by
  obtain ⟨a1, a2, a3⟩ := a
  have hmax : max (0:ℚ) (min 1 0) = 0 := by norm_num
  have hzero : pyInt ((0:ℚ) / (1 / ((2:ℚ) - 1))) = 0 := by
    norm_num [pyInt]
  simp only [interpolateColors, List.length_cons, List.length_nil]
  norm_num [hmax, hzero, pyInt_zero, pyInt_intCast]

theorem interpolateColors_pair_one (a b : RGB) : interpolateColors [a, b] 1 = b := by
  obtain ⟨b1, b2, b3⟩ := b
  have hmax : max (0:ℚ) (min 1 1) = 1 := by norm_num
  have hone : pyInt ((1:ℚ) / (1 / ((2:ℚ) - 1))) = 1 := by
    norm_num [pyInt]
  simp only [interpolateColors, List.length_cons, List.length_nil]
  norm_num [hmax, hone, pyInt_one]

theorem interpolateColors_clamp (colors : List RGB) (t : ℚ) :
    interpolateColors colors t = interpolateColors colors (max 0 (min 1 t)) := by
  unfold interpolateColors
  by_cases h : colors.length < 2
  · simp [h]
  · have hm0 : (0 : ℚ) ≤ max 0 (min 1 t) := le_max_left 0 _
    have hm1 : max (0:ℚ) (min 1 t) ≤ 1 := max_le (by norm_num) (min_le_left 1 t)
    simp only [h, if_false, min_eq_right hm1, max_eq_right hm0]

/-- The segment computation of `_interpolate_colors`: for `t` inside segment
`i` of the `n−1` equal subdivisions of `[0,1]`, the result truncates the
linear interpolation of each channel between colours `i` and `i+1`. -/
theorem interpolateColors_segment (colors : List RGB) (t : ℚ) (i : ℕ) (c1 c2 : RGB)
    (hlen : 2 ≤ colors.length) (ht0 : 0 ≤ t)
    (hlo : (i : ℚ) ≤ t * ((colors.length : ℚ) - 1))
    (hhi : t * ((colors.length : ℚ) - 1) < (i : ℚ) + 1)
    (hi : i + 1 < colors.length)
    (hc1 : colors.getD i (0, 0, 0) = c1) (hc2 : colors.getD (i + 1) (0, 0, 0) = c2) :
    interpolateColors colors t =
      (pyInt ((c1.1 : ℚ) + ((c2.1 : ℚ) - (c1.1 : ℚ)) * (t * ((colors.length : ℚ) - 1) - i)),
       pyInt ((c1.2.1 : ℚ) + ((c2.2.1 : ℚ) - (c1.2.1 : ℚ)) * (t * ((colors.length : ℚ) - 1) - i)),
       pyInt ((c1.2.2 : ℚ) + ((c2.2.2 : ℚ) - (c1.2.2 : ℚ)) * (t * ((colors.length : ℚ) - 1) - i))) := by
  have hpos : (0:ℚ) < (colors.length : ℚ) - 1 := by
    have h2 : (2:ℚ) ≤ (colors.length : ℚ) := by exact_mod_cast hlen
    linarith
  have hile : (i:ℚ) + 1 ≤ (colors.length : ℚ) - 1 := by
    have hn : (i + 2 : ℕ) ≤ colors.length := by omega
    have hq : ((i + 2 : ℕ) : ℚ) ≤ (colors.length : ℚ) := by exact_mod_cast hn
    push_cast at hq
    linarith
  have ht1 : t ≤ 1 := by
    by_contra hgt
    push_neg at hgt
    have hbig : (colors.length : ℚ) - 1 < t * ((colors.length : ℚ) - 1) := by nlinarith
    linarith
  have hr : max 0 (min 1 t) = t := by
    rw [min_eq_right ht1, max_eq_right ht0]
  have hfloor : ⌊t * ((colors.length : ℚ) - 1)⌋ = (i : ℤ) := by
    rw [Int.floor_eq_iff]
    constructor
    · push_cast
      exact hlo
    · push_cast
      exact hhi
  have hseg : pyInt (t / (1 / ((colors.length : ℚ) - 1))) = (i : ℤ) := by
    rw [one_div, div_inv_eq_mul]
    unfold pyInt
    rw [if_pos (mul_nonneg ht0 hpos.le), hfloor]
  have hnot2 : ¬ colors.length < 2 := by omega
  have hnotle : ¬ ((colors.length : ℤ) - 1 ≤ ((i : ℕ) : ℤ)) := by omega
  have hlocal : (t - ((i : ℕ) : ℤ) * (1 / ((colors.length : ℚ) - 1))) /
      (1 / ((colors.length : ℚ) - 1)) = t * ((colors.length : ℚ) - 1) - (i : ℚ) := by
    push_cast
    field_simp
  have htn : (((i : ℕ) : ℤ)).toNat = i := Int.toNat_natCast i
  simp only [interpolateColors, hnot2, if_false, hr, hseg, hnotle, htn, hlocal, hc1, hc2]

/-- C5: colour interpolation — a single colour is returned unchanged for any
ratio; a two-colour list returns its endpoints at t = 0 and t = 1; the ratio
is clamped into [0,1] before use; and with n ≥ 2 colours, for t inside segment
`i` of the n−1 equal subdivisions, each channel is linearly interpolated
between colours i and i+1 and truncated (not rounded) to an integer. -/
theorem interpolateColors_spec :
    (∀ (c : RGB) (t : ℚ), interpolateColors [c] t = c) ∧
    (∀ a b : RGB, interpolateColors [a, b] 0 = a ∧ interpolateColors [a, b] 1 = b) ∧
    (∀ (colors : List RGB) (t : ℚ),
      interpolateColors colors t = interpolateColors colors (max 0 (min 1 t))) ∧
    (∀ (colors : List RGB) (t : ℚ) (i : ℕ) (c1 c2 : RGB),
      2 ≤ colors.length → 0 ≤ t →
      (i : ℚ) ≤ t * ((colors.length : ℚ) - 1) →
      t * ((colors.length : ℚ) - 1) < (i : ℚ) + 1 →
      i + 1 < colors.length →
      colors.getD i (0, 0, 0) = c1 → colors.getD (i + 1) (0, 0, 0) = c2 →
      interpolateColors colors t =
        (pyInt ((c1.1 : ℚ) + ((c2.1 : ℚ) - (c1.1 : ℚ)) * (t * ((colors.length : ℚ) - 1) - i)),
         pyInt ((c1.2.1 : ℚ) + ((c2.2.1 : ℚ) - (c1.2.1 : ℚ)) * (t * ((colors.length : ℚ) - 1) - i)),
         pyInt ((c1.2.2 : ℚ) + ((c2.2.2 : ℚ) - (c1.2.2 : ℚ)) * (t * ((colors.length : ℚ) - 1) - i)))) :=
  ⟨interpolateColors_single,
   fun a b => ⟨interpolateColors_pair_zero a b, interpolateColors_pair_one a b⟩,
   interpolateColors_clamp,
   fun colors t i c1 c2 hlen ht0 hlo hhi hi hc1 hc2 =>
     interpolateColors_segment colors t i c1 c2 hlen ht0 hlo hhi hi hc1 hc2⟩

/-- Witness for `interpolateColors_spec`: interpolating
[(0,0,0), (100,100,100)] at t = 1/4 gives (25,25,25). -/
theorem interpolateColors_spec_witness :
    interpolateColors [(0, 0, 0), (100, 100, 100)] (1/4) = (25, 25, 25) := by
  have h := interpolateColors_spec.2.2.2 [(0, 0, 0), (100, 100, 100)] (1/4) 0
    (0, 0, 0) (100, 100, 100) (by decide) (by norm_num) (by norm_num) (by norm_num)
    (by decide) rfl rfl
  rw [h]
  norm_num [pyInt]

end AdMimic
